import Mathlib

/-!
# Verification of the pyflux TSM estimation engine (`src/pyflux/tsm.py`)

Shallow embedding of the `TSM` parent class: the fit dispatcher, the
optimization / OLS / Laplace / MCMC / BBVI estimators, the negative
log-posterior adapter and the `shift_dates` index utility.

Scalars are rational numbers; the numeric collaborators that live outside
`tsm.py` (scipy's minimizer, numdifftools' Hessian, numpy's sqrt/exp, the
Metropolis-Hastings sampler, the BBVI engine, and the VAR-specific OLS
helpers) are modelled as oracle fields of the `Model` structure, so every
definition is executable and the control flow of `tsm.py` is embedded
faithfully.
-/

/-- Map over a list with the element index, starting the count at `s`.
Mirrors Python loops of the form `for k in range(len(xs)): xs[k] = f(k, xs[k])`. -/
def mapIdxFrom {α β : Type} (f : ℕ → α → β) : ℕ → List α → List β
  | _, [] => []
  | s, x :: xs => f s x :: mapIdxFrom f (s + 1) xs

/-- `np.diag` of a square matrix stored as a list of rows. -/
def diag (rows : List (List ℚ)) : List ℚ :=
  mapIdxFrom (fun i row => row.getD i 0) 0 rows

/-- `np.zeros((n,n))` followed by `np.fill_diagonal(_, d)`. -/
def diagMatrix (d : List ℚ) : List (List ℚ) :=
  mapIdxFrom (fun i _ => mapIdxFrom (fun j x => if i = j then x else 0) 0 d) 0 d

/-- Arithmetic mean of one dimension's raw samples (`np.mean` of a chain row). -/
def rowMean (r : List ℚ) : ℚ := r.sum / (r.length : ℚ)

/-- A latent variable's prior, as consumed by `tsm.py`: log-density,
forward transform (unconstrained to natural scale) and inverse transform.
The containing module `latent_variables.py` is not under src/; these are
exactly the operations `tsm.py` calls on `z_list[k].prior`. -/
structure PriorSpec where
  logpdf : ℚ → ℚ
  transform : ℚ → ℚ
  itransform : ℚ → ℚ

instance : Inhabited PriorSpec := ⟨⟨fun _ => 0, fun x => x, fun x => x⟩⟩

/-- Modelled from the spec: the latent-variable registry
(`LatentVariables`, module `latent_variables.py`, not under src/).
Per spec section 2 it exposes "starting values, current values (raw and
transformed), batch value assignment with an estimation-method tag and
optional standard errors/samples".  `qlist` holds each latent variable's
approximating-distribution (location, scale) pair used only by BBVI.
`updateCount` instruments how many batch assignments have been applied. -/
structure Registry where
  starting : List ℚ
  values : List ℚ
  methodTag : Option String
  ses : Option (List ℚ)
  chain : Option (List (List ℚ))
  qlist : List (ℚ × ℚ)
  updateCount : ℕ
deriving DecidableEq

/-- Modelled from the spec: `LatentVariables.set_z_values(z, method, ses, chain)`
(not under src/) — the single batch assignment of values, method tag,
standard errors and optional chain (spec sections 2 and 3). -/
def Registry.set_z_values (r : Registry) (z : List ℚ) (method : String)
    (ses : Option (List ℚ)) (chain : Option (List (List ℚ))) : Registry :=
  { r with values := z, methodTag := some method, ses := ses, chain := chain,
           updateCount := r.updateCount + 1 }

/-- Output of the Metropolis-Hastings sampler (`inference` module, not under
src/): the raw chain (one row of unconstrained samples per latent variable)
and the per-dimension median and 2.5%/97.5% quantile estimates. -/
structure SamplerOutput where
  chain : List (List ℚ)
  median_est : List ℚ
  upper_95_est : List ℚ
  lower_95_est : List ℚ

/-- Type of the Metropolis-Hastings sampling oracle: posterior, scale,
nsims, starting values, optional proposal covariance. -/
def SamplerFn : Type :=
  (List ℚ → ℚ) → ℚ → ℕ → List ℚ → Option (List (List ℚ)) → SamplerOutput

/-- The model's date index, as dispatched on by `shift_dates`:
a pandas `DatetimeIndex` (calendar days), a pandas `Int64Index`,
some other pandas index, or a plain (non-pandas) incrementable sequence. -/
inductive DateIndex
  | datetime (days : List ℤ)
  | int64 (vals : List ℤ)
  | pandasOther (vals : List ℤ)
  | generic (vals : List ℤ)
deriving DecidableEq

/-- Number of entries of the index. -/
def DateIndex.length : DateIndex → ℕ
  | .datetime l => l.length
  | .int64 l => l.length
  | .pandasOther l => l.length
  | .generic l => l.length

/-- Python exceptions raised by `tsm.py`: `ValueError(msg)` or a plain
`Exception(msg)`. -/
inductive PyError
  | valueError (msg : String)
  | exception (msg : String)
deriving DecidableEq

/-- Which objective function `_optimize_fit` receives: `self.neg_loglik`
or `self.neg_logposterior` (the source distinguishes them by comparing
`obj_type == self.neg_loglik`). -/
inductive ObjType
  | loglik
  | logposterior
deriving DecidableEq

/-- A `TSM` model instance.  Fields up to `registry` are the model state
`tsm.py` reads and writes; the remaining fields are the external numeric
collaborators (scipy, numdifftools, numpy, the samplers, and the
VAR-specific OLS helpers), modelled as oracles. -/
structure Model where
  model_type : String
  default_method : String
  supported_methods : List String
  z_no : ℕ
  ylen : ℕ
  max_lag : ℕ
  index : DateIndex
  use_ols_covariance : Bool
  registry : Registry
  z_list : List PriorSpec
  neg_loglik : List ℚ → ℚ
  /-- `_categorize_model_output(z)`: dispatches on `model_type` and calls the
  concrete model's `_model` / `smoothed_state` / `expected_values` (all
  external collaborators, not under src/); a pure function of `z` for a
  fixed model.  Only the fitted signal `theta` is needed by the claims. -/
  categorize : List ℚ → List ℚ
  /-- `optimize.minimize(obj, phi, method='L-BFGS-B').x`. -/
  minimize : (List ℚ → ℚ) → List ℚ → List ℚ
  /-- `np.linalg.inv(nd.Hessian(obj)(x))`, `none` when the Hessian
  computation or inversion raises. -/
  hessianInv : (List ℚ → ℚ) → List ℚ → Option (List (List ℚ))
  /-- The `MetropolisHastings(...).sample()` collaborator. -/
  sampler : SamplerFn
  /-- The `BBVI(...).run()` collaborator: from the per-variable approximate
  distributions to (final distributions, point estimates, log-scale ses). -/
  bbvi_run : List (ℚ × ℚ) → List (ℚ × ℚ) × List ℚ × List ℚ
  /-- `self._create_B_direct().flatten()` (VAR model code, not under src/). -/
  create_B_direct_flat : List ℚ
  /-- `self.ols_covariance()` entry at row i, column k. -/
  ols_covariance : ℕ → ℕ → ℚ
  /-- `self.estimator_cov('OLS')` (VAR model code, not under src/). -/
  estimator_cov_ols : List (List ℚ)
  /-- `np.sqrt` / `np.power(_, 0.5)` on nonnegative input. -/
  np_sqrt : ℚ → ℚ
  /-- `np.exp`. -/
  np_exp : ℚ → ℚ

/-- The model families `tsm.py` special-cases as Gaussian-process models. -/
def gpTypes : List String := ["GPNARX", "GPR", "GP"]

/-- `z_list[k].prior` (out-of-range access is total here; `tsm.py` only
indexes below `z_no`). -/
def priorAt (m : Model) (k : ℕ) : PriorSpec := m.z_list.getD k default

/-- `z_list[-1].prior`, the last latent variable's prior (used by `_ols_fit`). -/
def lastPrior (m : Model) : PriorSpec := m.z_list.getD (m.z_list.length - 1) default

namespace TSM

/-- `TSM.neg_logposterior(beta)` (tsm.py lines 380-396): starts from the
model's negative log-likelihood and loops over the `z_no` latent
variables, adding the negative log-prior density at `beta[k]`. -/
def neg_logposterior (m : Model) (beta : List ℚ) : ℚ :=
  (List.range m.z_no).foldl
    (fun post k => post + -((priorAt m k).logpdf (beta.getD k 0)))
    (m.neg_loglik beta)

/-- The objective handed to `_optimize_fit` by `fit`. -/
def objFn (m : Model) : ObjType → (List ℚ → ℚ)
  | .loglik => m.neg_loglik
  | .logposterior => neg_logposterior m

end TSM

/-- A fit result, covering the fields of `MLEResults` / `LaplaceResults` /
`MCMCResults` / `BBVIResults` (module `results.py`, not under src/) that
`tsm.py` itself writes or reads: the method name, the inverse Hessian, the
BBVI log-scale ses, the fitted signal, the snapshot of the latent-variable
registry taken at packaging time (`latent_variables_store`), and the MCMC
chain and estimate vectors. -/
structure FitResult where
  method : String
  ihessian : Option (List (List ℚ))
  ses : Option (List ℚ)
  signal : List ℚ
  registry_snapshot : Registry
  samples : Option (List (List ℚ))
  mean_est : Option (List ℚ)
  median_est : Option (List ℚ)
  upper_95_est : Option (List ℚ)
  lower_95_est : Option (List ℚ)
deriving DecidableEq

namespace TSM

/-- `TSM._optimize_fit(obj_type, **kwargs)` (tsm.py lines 296-341).
Picks the method tag from the objective, takes starting values from the
registry unless a `start` kwarg overrides them, runs the minimizer, and
then tries to invert the numerically-computed Hessian: on success the
registry gets values, tag and standard errors `sqrt(abs(diag(ihessian)))`;
on failure the registry gets values and tag with `None` standard errors,
and the result carries no inverse Hessian. -/
def optimize_fit (m : Model) (obj : ObjType) (start : Option (List ℚ)) :
    Model × FitResult :=
  let method := match obj with | .loglik => "MLE" | .logposterior => "PML"
  let phi := start.getD m.registry.starting
  let px := m.minimize (objFn m obj) phi
  let theta := m.categorize px
  match m.hessianInv (objFn m obj) px with
  | some ihessian =>
      let ses := (diag ihessian).map (fun x => m.np_sqrt |x|)
      let reg := m.registry.set_z_values px method (some ses) none
      ({ m with registry := reg },
       { method := method, ihessian := some ihessian, ses := none,
         signal := theta, registry_snapshot := reg, samples := none,
         mean_est := none, median_est := none,
         upper_95_est := none, lower_95_est := none })
  | none =>
      let reg := m.registry.set_z_values px method none none
      ({ m with registry := reg },
       { method := method, ihessian := none, ses := none,
         signal := theta, registry_snapshot := reg, samples := none,
         mean_est := none, median_est := none,
         upper_95_est := none, lower_95_est := none })

/-- The nested `self.fit(method='PML', printer=False)` call made by
`_laplace_fit` and `_mcmc_fit`: the dispatcher checks `'PML'` against
`supported_methods` (raising `ValueError` if absent) and then routes to
`_optimize_fit(self.neg_logposterior)` with no starting-value override. -/
def fit_pml (m : Model) : Model × Except PyError FitResult :=
  if "PML" ∈ m.supported_methods then
    let r := optimize_fit m .logposterior none
    (r.1, .ok r.2)
  else (m, .error (.valueError "Method not supported!"))

/-- `TSM._laplace_fit(obj_type)` (tsm.py lines 156-188): performs a full
PML fit; if the result carries no inverse Hessian, raises
`Exception("No Hessian information - Laplace approximation cannot be
performed")`; otherwise packages a Laplace result whose signal is the
categorizer applied to the registry's current values. -/
def laplace_fit (m : Model) : Model × Except PyError FitResult :=
  match fit_pml m with
  | (m₁, .error e) => (m₁, .error e)
  | (m₁, .ok y) =>
    match y.ihessian with
    | none =>
        (m₁, .error (.exception
          "No Hessian information - Laplace approximation cannot be performed"))
    | some ih =>
        let theta := m₁.categorize m₁.registry.values
        (m₁, .ok { method := "Laplace", ihessian := some ih, ses := none,
                   signal := theta, registry_snapshot := m₁.registry,
                   samples := none, mean_est := none, median_est := none,
                   upper_95_est := none, lower_95_est := none })

/-- Modelled from the spec: `MetropolisHastings(...).sample()` (module
`inference.py`, not under src/).  Per spec section 4.5 the sampler draws the
raw (unconstrained) chain and computes "per-dimension mean, median, and
2.5%/97.5% empirical quantiles across the raw chain"; accordingly the
mean estimate returned here is the arithmetic mean of each dimension's raw
samples, while the chain, median and quantile estimates come from the
sampler oracle. -/
def sample (m : Model) (sampler : SamplerFn) (scale : ℚ) (nsims : ℕ)
    (start : List ℚ) (cov : Option (List (List ℚ))) :
    List (List ℚ) × List ℚ × List ℚ × List ℚ × List ℚ :=
  let o := sampler (neg_logposterior m) scale nsims start cov
  (o.chain, o.chain.map rowMean, o.median_est, o.upper_95_est, o.lower_95_est)

/-- The transform loop of `_mcmc_fit` (tsm.py lines 230-235) applied to one
of the estimate vectors: entry `k` is passed through latent variable `k`'s
prior transform for every `k < n`, where `n` is the number of chain rows
(`for k in range(len(chain))`). -/
def transformUpTo (m : Model) (n : ℕ) (v : List ℚ) : List ℚ :=
  mapIdxFrom (fun k x => if k < n then (priorAt m k).transform x else x) 0 v

/-- The body of `_mcmc_fit` from the sampler call onwards (tsm.py lines
224-252): a sampler method other than `"M-H"` raises
`Exception("Method not recognized!")`; otherwise the raw chain rows and the
mean/median/quantile vectors are each passed through the prior transforms
once, the registry is batch-assigned the transformed mean with tag `'M-H'`,
no standard errors and the transformed chain, and an MCMC result is
packaged. -/
def mcmc_core (m : Model) (sampler : SamplerFn) (scale : ℚ) (nsims : ℕ)
    (method : String) (cov : Option (List (List ℚ))) (start : List ℚ) :
    Model × Except PyError FitResult :=
  if method = "M-H" then
    match sample m sampler scale nsims start cov with
    | (chain₀, mean₀, median₀, upper₀, lower₀) =>
      let n := chain₀.length
      let chain := mapIdxFrom (fun k row => row.map ((priorAt m k).transform)) 0 chain₀
      let mean_est := transformUpTo m n mean₀
      let median_est := transformUpTo m n median₀
      let upper_95_est := transformUpTo m n upper₀
      let lower_95_est := transformUpTo m n lower₀
      let reg := m.registry.set_z_values mean_est "M-H" none (some chain)
      ({ m with registry := reg },
       .ok { method := "Metropolis Hastings", ihessian := none, ses := none,
             signal := m.categorize mean_est, registry_snapshot := reg,
             samples := some chain, mean_est := some mean_est,
             median_est := some median_est, upper_95_est := some upper_95_est,
             lower_95_est := some lower_95_est })
  else (m, .error (.exception "Method not recognized!"))

/-- `TSM._mcmc_fit(scale, nsims, printer, method, cov_matrix)` (tsm.py
lines 190-252).  The caller-supplied `scale` is immediately overwritten by
the heuristic `2.38/np.sqrt(self.z_no)` (line 210).  For non-GP models a
nested PML fit supplies starting values and, when an inverse Hessian is
available, a diagonal proposal covariance `diag(abs(diag(ihessian)))`
(overriding any caller-supplied `cov_matrix`); GP models start from the
registry's starting values instead. -/
def mcmc_fit (m : Model) (sampler : SamplerFn) (scale : ℚ) (nsims : ℕ)
    (method : String) (cov_matrix : Option (List (List ℚ))) :
    Model × Except PyError FitResult :=
  let scale := (238 : ℚ) / 100 / m.np_sqrt (m.z_no : ℚ)
  if m.model_type ∈ gpTypes then
    mcmc_core m sampler scale nsims method cov_matrix m.registry.starting
  else
    match fit_pml m with
    | (m₁, .error e) => (m₁, .error e)
    | (m₁, .ok y) =>
      let starting_values := y.registry_snapshot.values
      let cov' := match y.ihessian with
        | some ih => some (diagMatrix ((diag ih).map (fun x => |x|)))
        | none => cov_matrix
      mcmc_core m₁ sampler scale nsims method cov' starting_values

/-- The covariance-appending loop of `_ols_fit` (tsm.py lines 272-275):
`for i in range(ylen): for k in range(ylen): if i == k or i > k:
z = append(z, z_list[-1].prior.itransform(cov[i,k]))`. -/
def olsAppend (m : Model) : List ℚ :=
  (List.range m.ylen).flatMap (fun i =>
    ((List.range m.ylen).filter (fun k => i == k || decide (i > k))).map
      (fun k => (lastPrior m).itransform (m.ols_covariance i k)))

/-- `TSM._ols_fit()` (tsm.py lines 254-294): sets `use_ols_covariance`,
takes the flattened direct regression solution, appends the itransformed
lower triangle of the residual covariance, computes coefficient standard
errors as `abs(diag(estimator_cov))^0.5` padded with ones for the appended
entries, batch-assigns the registry with tag `'OLS'` and packages an
`MLEResults` carrying the estimator covariance as `ihessian`. -/
def ols_fit (m : Model) : Model × FitResult :=
  let m₀ := { m with use_ols_covariance := true }
  let res_z := m₀.create_B_direct_flat
  let z := res_z ++ olsAppend m₀
  let ihessian := m₀.estimator_cov_ols
  let res_ses := (diag ihessian).map (fun x => m₀.np_sqrt |x|)
  let ses := res_ses ++ List.replicate (z.length - res_z.length) 1
  let reg := m₀.registry.set_z_values z "OLS" (some ses) none
  ({ m₀ with registry := reg },
   { method := "OLS", ihessian := some ihessian, ses := none,
     signal := m₀.categorize z, registry_snapshot := reg, samples := none,
     mean_est := none, median_est := none,
     upper_95_est := none, lower_95_est := none })

/-- `TSM._bbvi_fit(posterior, ...)` (tsm.py lines 92-154), with
`posterior = self.neg_logposterior`: for non-GP models the approximating
locations start from `0.8*p.x + 0.2*phi` where `p` minimizes the posterior
from the registry's starting values (GP models start at `phi` directly);
every approximating distribution is reset to that location with log-scale
`-3.0`; the BBVI engine runs; the registry is batch-assigned the point
estimates with tag `'BBVI'` and exponentiated log-scales as standard
errors, and each stored approximating distribution is replaced by its
converged form. -/
def bbvi_fit (m : Model) : Model × FitResult :=
  let phi := m.registry.starting
  let start_loc :=
    if m.model_type ∈ gpTypes then phi
    else
      let p := m.minimize (neg_logposterior m) phi
      List.zipWith (fun a b => (8 : ℚ) / 10 * a + (2 : ℚ) / 10 * b) p phi
  let qinit := mapIdxFrom (fun i _ => (start_loc.getD i 0, (-3 : ℚ))) 0 m.registry.qlist
  let reg₁ := { m.registry with qlist := qinit }
  match m.bbvi_run qinit with
  | (q, q_z, q_ses) =>
    let reg₂ := reg₁.set_z_values q_z "BBVI" (some (q_ses.map m.np_exp)) none
    let reg₃ := { reg₂ with qlist := q }
    ({ m with registry := reg₃ },
     { method := "BBVI", ihessian := none, ses := some q_ses,
       signal := m.categorize q_z, registry_snapshot := reg₃, samples := none,
       mean_est := none, median_est := none,
       upper_95_est := none, lower_95_est := none })

/-- The dispatch chain of `TSM.fit` (tsm.py lines 367-378): six recognized
method names; any other name falls off the end of the `elif` chain and the
call returns `None`. -/
def dispatch (m : Model) (method : String) (start : Option (List ℚ))
    (cov_matrix : Option (List (List ℚ))) (nsims : ℕ) :
    Model × Except PyError (Option FitResult) :=
  if method = "MLE" then
    let r := optimize_fit m .loglik start
    (r.1, .ok (some r.2))
  else if method = "PML" then
    let r := optimize_fit m .logposterior start
    (r.1, .ok (some r.2))
  else if method = "M-H" then
    let r := mcmc_fit m m.sampler 1 nsims method cov_matrix
    (r.1, r.2.map some)
  else if method = "Laplace" then
    let r := laplace_fit m
    (r.1, r.2.map some)
  else if method = "BBVI" then
    let r := bbvi_fit m
    (r.1, .ok (some r.2))
  else if method = "OLS" then
    let r := ols_fit m
    (r.1, .ok (some r.2))
  else (m, .ok none)

/-- `TSM.fit(method, **kwargs)` (tsm.py lines 343-378): an absent method
defaults to `self.default_method` (with no support check); a present
method not in `supported_methods` raises
`ValueError("Method not supported!")`; otherwise the dispatch chain runs. -/
def fit (m : Model) (method : Option String) (start : Option (List ℚ))
    (cov_matrix : Option (List (List ℚ))) (nsims : ℕ) :
    Model × Except PyError (Option FitResult) :=
  match method with
  | none => dispatch m m.default_method start cov_matrix nsims
  | some mth =>
      if mth ∈ m.supported_methods then dispatch m mth start cov_matrix nsims
      else (m, .error (.valueError "Method not supported!"))

end TSM

/-- `date_index[len(date_index)-1]` for an integer-valued index. -/
def lastVal (l : List ℤ) : ℤ := l.getD (l.length - 1) 0

/-- `date_index[len(date_index)-2]` for an integer-valued index. -/
def secondLastVal (l : List ℤ) : ℤ := l.getD (l.length - 2) 0

/-- The `DatetimeIndex` branch of `shift_dates` (tsm.py lines 441-442):
`h` times, the whole index is shifted by the day difference of its last
two entries (`date_index += pd.DateOffset(...)` translates every entry). -/
def dtShiftLoop : ℕ → List ℤ → List ℤ
  | 0, l => l
  | t + 1, l =>
      let d := lastVal l - secondLastVal l
      dtShiftLoop t (l.map (fun x => x + d))

/-- The `Int64Index` branch of `shift_dates` (tsm.py lines 446-448):
`h` times, append `last + (last - second_last)` to the index. -/
def int64Loop : ℕ → List ℤ → List ℤ
  | 0, l => l
  | t + 1, l => int64Loop t (l ++ [lastVal l + (lastVal l - secondLastVal l)])

/-- The non-pandas branch of `shift_dates` (tsm.py lines 452-453):
`h` times, append `last + 1` to the (mutable list) index. -/
def genLoop : ℕ → List ℤ → List ℤ
  | 0, l => l
  | t + 1, l => genLoop t (l ++ [lastVal l + 1])

namespace TSM

/-- `TSM.shift_dates(h)` (tsm.py lines 420-455): deep-copies the stored
index, truncates the first `max_lag` entries, then extends or shifts the
copy according to the index kind.  A pandas index that is neither a
`DatetimeIndex` nor an `Int64Index` falls through both `isinstance` checks
and is returned truncated but otherwise unchanged.  The model itself is
returned untouched (the deep copy shields `self.index`). -/
def shift_dates (m : Model) (h : ℕ) : Model × DateIndex :=
  match m.index with
  | .datetime l => (m, .datetime (dtShiftLoop h (l.drop m.max_lag)))
  | .int64 l => (m, .int64 (int64Loop h (l.drop m.max_lag)))
  | .pandasOther l => (m, .pandasOther (l.drop m.max_lag))
  | .generic l => (m, .generic (genLoop h (l.drop m.max_lag)))

end TSM

/-- The lower triangle (including the diagonal) of an `n × n` matrix,
flattened row by row — stated after the spec's words ("flatten the lower
triangle (including diagonal) of the covariance matrix"), for comparison
with the source's filter loop `olsAppend`. -/
def lowerTriangle (n : ℕ) (f : ℕ → ℕ → ℚ) : List ℚ :=
  (List.range n).flatMap (fun i => (List.range (i + 1)).map (fun k => f i k))

/-- The raw sampler output consumed by `_mcmc_fit` before any transform is
applied. -/
def rawOut (m : Model) (sp : SamplerFn) (scale : ℚ) (nsims : ℕ)
    (start : List ℚ) (cov : Option (List (List ℚ))) : SamplerOutput :=
  sp (TSM.neg_logposterior m) scale nsims start cov

/-- A concrete registry used to evaluate the embedding on closed inputs. -/
def cmReg : Registry :=
  { starting := [1], values := [1], methodTag := none, ses := none,
    chain := none, qlist := [(0, 0)], updateCount := 0 }

/-- A concrete model whose Hessian inversion fails, used to evaluate the
embedding on closed inputs. -/
def cm : Model :=
  { model_type := "ARIMA", default_method := "MLE",
    supported_methods := ["MLE", "PML", "M-H", "Laplace", "BBVI", "OLS"],
    z_no := 1, ylen := 2, max_lag := 0, index := .int64 [0, 2, 4],
    use_ols_covariance := false, registry := cmReg,
    z_list := [⟨fun _ => 0, fun x => x + 1, fun x => x⟩],
    neg_loglik := fun _ => 0, categorize := fun z => z,
    minimize := fun _ p => p.map (fun _ => 0),
    hessianInv := fun _ _ => none,
    sampler := fun _ _ _ st _ => ⟨[st], [0], [0], [0]⟩,
    bbvi_run := fun q => (q, [0], [0]),
    create_B_direct_flat := [3], ols_covariance := fun i k => (i : ℚ) + (k : ℚ),
    estimator_cov_ols := [[4]],
    np_sqrt := fun x => x, np_exp := fun x => x }

/-- `cm` with a successful Hessian inversion. -/
def cmH : Model := { cm with hessianInv := fun _ _ => some [[4]] }

/-- `cm` with an unrecognized-but-supported method name declared. -/
def cmSup : Model := { cm with supported_methods := ["MLE", "Gibbs"] }

theorem mapIdxFrom_length {α β : Type} (f : ℕ → α → β) (s : ℕ) (l : List α) :
    (mapIdxFrom f s l).length = l.length := by
  induction l generalizing s with
  | nil => rfl
  | cons x xs ih => simp [mapIdxFrom, ih]

theorem mapIdxFrom_getD {α β : Type} (f : ℕ → α → β) (s : ℕ) (l : List α)
    (k : ℕ) (hk : k < l.length) (dα : α) (dβ : β) :
    (mapIdxFrom f s l).getD k dβ = f (s + k) (l.getD k dα) := by
  induction l generalizing s k with
  | nil => simp at hk
  | cons x xs ih =>
    cases k with
    | zero => simp [mapIdxFrom]
    | succ k =>
      simp only [mapIdxFrom, List.getD_cons_succ]
      rw [ih (s + 1) k (by simpa using hk)]
      ring_nf

theorem list_map_getD {α β : Type} (f : α → β) (l : List α) (k : ℕ)
    (hk : k < l.length) (dα : α) (dβ : β) :
    (l.map f).getD k dβ = f (l.getD k dα) := by
  induction l generalizing k with
  | nil => simp at hk
  | cons x xs ih =>
    cases k with
    | zero => simp
    | succ k => simpa using ih k (by simpa using hk)

theorem foldl_add_map_sum (f : ℕ → ℚ) (l : List ℕ) (init : ℚ) :
    l.foldl (fun post k => post + f k) init = init + (l.map f).sum := by
  induction l generalizing init with
  | nil => simp
  | cons x xs ih => simp [ih, add_assoc]

theorem sum_map_range (f : ℕ → ℚ) (n : ℕ) :
    ((List.range n).map f).sum = ∑ k in Finset.range n, f k := by
  induction n with
  | zero => simp
  | succ t ih => rw [List.range_succ, Finset.sum_range_succ, List.map_append]; simp [ih]

/-- C9: for every parameter vector `beta`, `neg_logposterior(beta)` equals
the model's `neg_loglik(beta)` plus the sum, over all `z_no` latent
variables, of the negative log-prior density evaluated at `beta[k]`. -/
theorem C9_neg_logposterior_decomposition (m : Model) (beta : List ℚ) :
    TSM.neg_logposterior m beta =
      m.neg_loglik beta +
        ∑ k in Finset.range m.z_no, -((priorAt m k).logpdf (beta.getD k 0)) := by
  unfold TSM.neg_logposterior
  rw [foldl_add_map_sum, sum_map_range]

/-- C3: a method string not in `supported_methods` makes `fit` raise the
invalid-method error (`ValueError("Method not supported!")`) with the model
— in particular its latent-variable registry — left unchanged, and an
absent method argument makes `fit` route to the model's declared default
method. -/
theorem C3_invalid_method_and_default_routing (m : Model) (mth : String)
    (start : Option (List ℚ)) (cov : Option (List (List ℚ))) (nsims : ℕ) :
    (mth ∉ m.supported_methods →
      TSM.fit m (some mth) start cov nsims =
        (m, .error (.valueError "Method not supported!"))) ∧
    TSM.fit m none start cov nsims = TSM.dispatch m m.default_method start cov nsims := by
  constructor
  · intro h
    simp [TSM.fit, h]
  · rfl

theorem C3_witness :
    "XYZ" ∉ cm.supported_methods ∧
    TSM.fit cm (some "XYZ") none none 10 =
      (cm, .error (.valueError "Method not supported!")) :=
  ⟨by decide,
   (C3_invalid_method_and_default_routing cm "XYZ" none none 10).1 (by decide)⟩

/-- C10: a method string that is declared in `supported_methods` but is not
one of the six recognized names falls through the dispatch chain: `fit`
raises no error, returns no result (`None`), and the model — in particular
its registry — is unchanged. -/
theorem C10_unrecognized_supported_method_falls_through (m : Model) (mth : String)
    (start : Option (List ℚ)) (cov : Option (List (List ℚ))) (nsims : ℕ)
    (h1 : mth ∈ m.supported_methods)
    (h2 : mth ∉ (["MLE", "PML", "M-H", "Laplace", "BBVI", "OLS"] : List String)) :
    TSM.fit m (some mth) start cov nsims = (m, .ok none) := by
  simp only [List.mem_cons, List.not_mem_nil, or_false, not_or] at h2
  obtain ⟨n1, n2, n3, n4, n5, n6⟩ := h2
  simp [TSM.fit, TSM.dispatch, h1, n1, n2, n3, n4, n5, n6]

theorem C10_witness :
    "Gibbs" ∈ cmSup.supported_methods ∧
    "Gibbs" ∉ (["MLE", "PML", "M-H", "Laplace", "BBVI", "OLS"] : List String) ∧
    TSM.fit cmSup (some "Gibbs") none none 10 = (cmSup, .ok none) :=
  ⟨by decide, by decide,
   C10_unrecognized_supported_method_falls_through cmSup "Gibbs" none none 10
     (by decide) (by decide)⟩

theorem optimize_fit_count (m : Model) (o : ObjType) (s : Option (List ℚ)) :
    (TSM.optimize_fit m o s).1.registry.updateCount = m.registry.updateCount + 1 := by
  simp only [TSM.optimize_fit]
  split <;> split <;> simp [Registry.set_z_values]

theorem fit_pml_count (m : Model) (h : "PML" ∈ m.supported_methods) :
    (TSM.fit_pml m).1.registry.updateCount = m.registry.updateCount + 1 := by
  unfold TSM.fit_pml
  simp [h, optimize_fit_count]

theorem mcmc_core_count (m : Model) (sp : SamplerFn) (sc : ℚ) (n : ℕ)
    (cov : Option (List (List ℚ))) (st : List ℚ) :
    (TSM.mcmc_core m sp sc n "M-H" cov st).1.registry.updateCount =
      m.registry.updateCount + 1 := by
  unfold TSM.mcmc_core
  simp [TSM.sample, Registry.set_z_values]

theorem mcmc_fit_count (m : Model) (sp : SamplerFn) (sc : ℚ) (n : ℕ)
    (cov : Option (List (List ℚ))) :
    (m.model_type ∈ gpTypes →
      (TSM.mcmc_fit m sp sc n "M-H" cov).1.registry.updateCount =
        m.registry.updateCount + 1) ∧
    (m.model_type ∉ gpTypes → "PML" ∈ m.supported_methods →
      (TSM.mcmc_fit m sp sc n "M-H" cov).1.registry.updateCount =
        m.registry.updateCount + 2) := by
  constructor
  · intro hgp
    unfold TSM.mcmc_fit
    simp [hgp, mcmc_core_count]
  · intro hgp hp
    unfold TSM.mcmc_fit
    simp only [hgp, if_false, TSM.fit_pml, hp, if_true]
    rw [mcmc_core_count, optimize_fit_count]

theorem laplace_fit_count (m : Model) (hp : "PML" ∈ m.supported_methods) :
    (TSM.laplace_fit m).1.registry.updateCount = m.registry.updateCount + 1 := by
  unfold TSM.laplace_fit
  simp only [TSM.fit_pml, hp, if_true]
  split <;> simp [optimize_fit_count]

theorem ols_fit_count (m : Model) :
    (TSM.ols_fit m).1.registry.updateCount = m.registry.updateCount + 1 := by
  unfold TSM.ols_fit
  simp [Registry.set_z_values]

theorem bbvi_fit_count (m : Model) :
    (TSM.bbvi_fit m).1.registry.updateCount = m.registry.updateCount + 1 := by
  unfold TSM.bbvi_fit
  split <;> simp [Registry.set_z_values]

/-- C1 (amended): the number of batch registry assignments performed by a
`fit` call depends on the path taken.  Direct fits (MLE, PML, OLS, BBVI)
and M-H fits on GP-family models assign exactly once; an M-H fit on any
other model assigns exactly twice (once inside the nested PML fit and once
with the M-H estimates); a Laplace fit assigns exactly once, inside its
nested PML fit, and that assignment happens whether or not the Laplace
call subsequently fails for want of an invertible Hessian; only an
unsupported-method failure leaves the model, and hence the registry, in
its prior state. -/
theorem C1_amended_update_counts (m : Model) (s : Option (List ℚ))
    (c : Option (List (List ℚ))) (n : ℕ) :
    (∀ mth, mth ∈ (["MLE", "PML", "OLS", "BBVI"] : List String) →
      mth ∈ m.supported_methods →
      (TSM.fit m (some mth) s c n).1.registry.updateCount =
        m.registry.updateCount + 1) ∧
    ("M-H" ∈ m.supported_methods → m.model_type ∈ gpTypes →
      (TSM.fit m (some "M-H") s c n).1.registry.updateCount =
        m.registry.updateCount + 1) ∧
    ("M-H" ∈ m.supported_methods → m.model_type ∉ gpTypes →
      "PML" ∈ m.supported_methods →
      (TSM.fit m (some "M-H") s c n).1.registry.updateCount =
        m.registry.updateCount + 2) ∧
    ("Laplace" ∈ m.supported_methods → "PML" ∈ m.supported_methods →
      (TSM.fit m (some "Laplace") s c n).1.registry.updateCount =
        m.registry.updateCount + 1) ∧
    (∀ mth, mth ∉ m.supported_methods → (TSM.fit m (some mth) s c n).1 = m) := by
  refine ⟨?_, ?_, ?_, ?_, ?_⟩
  · intro mth hmem hsup
    simp only [List.mem_cons, List.not_mem_nil, or_false] at hmem
    rcases hmem with rfl | rfl | rfl | rfl
    · simp [TSM.fit, TSM.dispatch, hsup, optimize_fit_count]
    · simp [TSM.fit, TSM.dispatch, hsup, optimize_fit_count]
    · simp [TSM.fit, TSM.dispatch, hsup, ols_fit_count]
    · simp [TSM.fit, TSM.dispatch, hsup, bbvi_fit_count]
  · intro hsup hgp
    simp [TSM.fit, TSM.dispatch, hsup, (mcmc_fit_count m m.sampler 1 n c).1 hgp]
  · intro hsup hgp hp
    simp [TSM.fit, TSM.dispatch, hsup, (mcmc_fit_count m m.sampler 1 n c).2 hgp hp]
  · intro hsup hp
    simp [TSM.fit, TSM.dispatch, hsup, laplace_fit_count m hp]
  · intro mth hsup
    simp [TSM.fit, hsup]

theorem C1_witness :
    "MLE" ∈ cm.supported_methods ∧
    (TSM.fit cm (some "MLE") none none 10).1.registry.updateCount =
      cm.registry.updateCount + 1 ∧
    (TSM.fit cm (some "M-H") none none 10).1.registry.updateCount =
      cm.registry.updateCount + 2 := by
  refine ⟨by decide, ?_, ?_⟩
  · exact (C1_amended_update_counts cm none none 10).1 "MLE" (by decide) (by decide)
  · exact (C1_amended_update_counts cm none none 10).2.2.1 (by decide) (by decide)
      (by decide)

/-- C1 counterexample: on the concrete model `cm` (whose Hessian inversion
fails), `fit('Laplace')` fails with a fatal error and yet the registry has
been updated — its batch-assignment count went from 0 to 1 and its values
changed from [1] to [0] — and `fit('M-H')` performs two batch assignments
in one call, so the registry is neither "updated exactly once per fit" nor
"left in its prior state" on a fatal failure. -/
theorem C1_counterexample :
    (TSM.fit cm (some "Laplace") none none 10).2 =
      .error (.exception
        "No Hessian information - Laplace approximation cannot be performed") ∧
    cm.registry.updateCount = 0 ∧
    cm.registry.values = [1] ∧
    (TSM.fit cm (some "Laplace") none none 10).1.registry.updateCount = 1 ∧
    (TSM.fit cm (some "Laplace") none none 10).1.registry.values = [0] ∧
    (TSM.fit cm (some "M-H") none none 10).1.registry.updateCount = 2 := by
  refine ⟨rfl, rfl, rfl, ?_, ?_, ?_⟩ <;> decide

theorem neg_logposterior_set_registry (m : Model) (r : Registry) :
    TSM.neg_logposterior { m with registry := r } = TSM.neg_logposterior m := rfl

/-- C4: the Metropolis-Hastings sampler is only ever consulted at proposal
scale `2.38/sqrt(z_no)`: two sampling oracles that agree at that scale (for
the model's posterior and the given simulation count) make `_mcmc_fit`
produce identical outcomes, whatever proposal scales the two callers
supplied — the caller-supplied `scale` argument is ignored and the
heuristic always wins. -/
theorem C4_scale_heuristic_always_wins (m : Model) (f g : SamplerFn)
    (s₁ s₂ : ℚ) (nsims : ℕ) (cov : Option (List (List ℚ)))
    (hfg : ∀ st c,
      f (TSM.neg_logposterior m) ((238 : ℚ) / 100 / m.np_sqrt (m.z_no : ℚ)) nsims st c =
      g (TSM.neg_logposterior m) ((238 : ℚ) / 100 / m.np_sqrt (m.z_no : ℚ)) nsims st c) :
    TSM.mcmc_fit m f s₁ nsims "M-H" cov = TSM.mcmc_fit m g s₂ nsims "M-H" cov := by
  simp only [TSM.mcmc_fit]
  by_cases hgp : m.model_type ∈ gpTypes
  · simp only [hgp, if_true, TSM.mcmc_core, TSM.sample, hfg]
  · simp only [hgp, if_false, TSM.fit_pml]
    by_cases hp : "PML" ∈ m.supported_methods
    · simp only [hp, if_true, TSM.optimize_fit]
      cases m.hessianInv (TSM.objFn m .logposterior)
          (m.minimize (TSM.objFn m .logposterior)
            ((none : Option (List ℚ)).getD m.registry.starting)) <;>
        simp only [TSM.mcmc_core, TSM.sample, neg_logposterior_set_registry, hfg]
    · simp [hp]

theorem C4_witness :
    TSM.mcmc_fit cm cm.sampler 1 5 "M-H" none =
      TSM.mcmc_fit cm cm.sampler 7 5 "M-H" none :=
  C4_scale_heuristic_always_wins cm cm.sampler cm.sampler 1 7 5 none
    (fun _ _ => rfl)

/-- C7: for an optimization-based fit (MLE or PML) in which the minimizer
returns but the Hessian computation or inversion fails, `fit` still
succeeds, the returned result has no inverse Hessian and its registry
snapshot has no standard errors, and the live registry is still
batch-assigned once with the final parameter values and the method tag,
with standard errors set to `None`. -/
theorem C7_hessian_failure_is_recoverable (m : Model) (mth : String)
    (s : Option (List ℚ)) (c : Option (List (List ℚ))) (n : ℕ)
    (hm : mth = "MLE" ∨ mth = "PML") (hsup : mth ∈ m.supported_methods)
    (hfail : m.hessianInv
        (TSM.objFn m (if mth = "MLE" then ObjType.loglik else ObjType.logposterior))
        (m.minimize
          (TSM.objFn m (if mth = "MLE" then ObjType.loglik else ObjType.logposterior))
          (s.getD m.registry.starting)) = none) :
    ∃ r : FitResult,
      TSM.fit m (some mth) s c n =
        ({ m with registry := r.registry_snapshot }, .ok (some r)) ∧
      r.ihessian = none ∧
      r.method = mth ∧
      r.registry_snapshot.ses = none ∧
      r.registry_snapshot.values =
        m.minimize
          (TSM.objFn m (if mth = "MLE" then ObjType.loglik else ObjType.logposterior))
          (s.getD m.registry.starting) ∧
      r.registry_snapshot.methodTag = some mth ∧
      r.registry_snapshot.updateCount = m.registry.updateCount + 1 := by
  rcases hm with rfl | rfl
  · simp only [reduceIte] at hfail
    refine ⟨⟨"MLE", none, none,
        m.categorize (m.minimize (TSM.objFn m .loglik) (s.getD m.registry.starting)),
        m.registry.set_z_values
          (m.minimize (TSM.objFn m .loglik) (s.getD m.registry.starting))
          "MLE" none none,
        none, none, none, none, none⟩, ?_, rfl, rfl, ?_, ?_, ?_, ?_⟩ <;>
      simp [TSM.fit, TSM.dispatch, TSM.optimize_fit, hsup, hfail,
        Registry.set_z_values]
  · rw [if_neg (by decide : ¬("PML" = "MLE"))] at hfail
    refine ⟨⟨"PML", none, none,
        m.categorize (m.minimize (TSM.objFn m .logposterior) (s.getD m.registry.starting)),
        m.registry.set_z_values
          (m.minimize (TSM.objFn m .logposterior) (s.getD m.registry.starting))
          "PML" none none,
        none, none, none, none, none⟩, ?_, rfl, rfl, ?_, ?_, ?_, ?_⟩ <;>
      simp [TSM.fit, TSM.dispatch, TSM.optimize_fit, hsup, hfail,
        Registry.set_z_values]

theorem C7_witness :
    "MLE" ∈ cm.supported_methods ∧
    cm.hessianInv
      (TSM.objFn cm (if "MLE" = "MLE" then ObjType.loglik else ObjType.logposterior))
      (cm.minimize
        (TSM.objFn cm (if "MLE" = "MLE" then ObjType.loglik else ObjType.logposterior))
        ((none : Option (List ℚ)).getD cm.registry.starting)) = none ∧
    ∃ r : FitResult,
      TSM.fit cm (some "MLE") none none 10 =
        ({ cm with registry := r.registry_snapshot }, .ok (some r)) ∧
      r.ihessian = none ∧
      r.method = "MLE" ∧
      r.registry_snapshot.ses = none ∧
      r.registry_snapshot.values =
        cm.minimize
          (TSM.objFn cm (if "MLE" = "MLE" then ObjType.loglik else ObjType.logposterior))
          ((none : Option (List ℚ)).getD cm.registry.starting) ∧
      r.registry_snapshot.methodTag = some "MLE" ∧
      r.registry_snapshot.updateCount = cm.registry.updateCount + 1 :=
  ⟨by decide, rfl,
   C7_hessian_failure_is_recoverable cm "MLE" none none 10 (Or.inl rfl)
     (by decide) rfl⟩

/-- C6 (amended): `fit(method="Laplace")` first executes a full PML fit
(the returned model state is exactly the state after that nested fit); if
that fit produced no invertible Hessian the call fails with the exception
message "No Hessian information - Laplace approximation cannot be
performed" and produces no result object; otherwise it returns a Laplace
result carrying the PML fit's inverse Hessian whose signal values equal
those of calling `fit(method="PML")` directly. -/
theorem C6_amended_laplace_reuses_pml (m : Model) (s : Option (List ℚ))
    (c : Option (List (List ℚ))) (n : ℕ)
    (hL : "Laplace" ∈ m.supported_methods) (hP : "PML" ∈ m.supported_methods) :
    (m.hessianInv (TSM.objFn m .logposterior)
        (m.minimize (TSM.objFn m .logposterior) m.registry.starting) = none →
      TSM.fit m (some "Laplace") s c n =
        ((TSM.fit_pml m).1,
         .error (.exception
           "No Hessian information - Laplace approximation cannot be performed"))) ∧
    (∀ ih, m.hessianInv (TSM.objFn m .logposterior)
        (m.minimize (TSM.objFn m .logposterior) m.registry.starting) = some ih →
      ∃ rL rP : FitResult,
        TSM.fit m (some "Laplace") s c n = ((TSM.fit_pml m).1, .ok (some rL)) ∧
        TSM.fit m (some "PML") none c n = ((TSM.fit_pml m).1, .ok (some rP)) ∧
        rL.signal = rP.signal ∧ rL.method = "Laplace" ∧ rP.method = "PML" ∧
        rL.ihessian = some ih) := by
  constructor
  · intro hfail
    simp [TSM.fit, TSM.dispatch, TSM.laplace_fit, TSM.fit_pml, TSM.optimize_fit,
      Except.map, hL, hP, hfail]
  · intro ih hok
    refine ⟨⟨"Laplace", some ih, none,
        m.categorize (m.minimize (TSM.objFn m .logposterior) m.registry.starting),
        m.registry.set_z_values
          (m.minimize (TSM.objFn m .logposterior) m.registry.starting) "PML"
          (some ((diag ih).map (fun x => m.np_sqrt |x|))) none,
        none, none, none, none, none⟩,
      ⟨"PML", some ih, none,
        m.categorize (m.minimize (TSM.objFn m .logposterior) m.registry.starting),
        m.registry.set_z_values
          (m.minimize (TSM.objFn m .logposterior) m.registry.starting) "PML"
          (some ((diag ih).map (fun x => m.np_sqrt |x|))) none,
        none, none, none, none, none⟩, ?_, ?_, rfl, rfl, rfl, rfl⟩ <;>
      simp [TSM.fit, TSM.dispatch, TSM.laplace_fit, TSM.fit_pml, TSM.optimize_fit,
        Except.map, hL, hP, hok, Registry.set_z_values]

/-- C6 counterexample: the fatal Laplace error message produced by the code
is "No Hessian information - Laplace approximation cannot be performed",
which differs from the message "no curvature information — Laplace
approximation cannot be performed" asserted by the claim. -/
theorem C6_counterexample :
    (TSM.fit cm (some "Laplace") none none 10).2 =
      .error (.exception
        "No Hessian information - Laplace approximation cannot be performed") ∧
    "No Hessian information - Laplace approximation cannot be performed" ≠
      "no curvature information — Laplace approximation cannot be performed" :=
  ⟨rfl, by decide⟩

theorem C6_witness :
    "Laplace" ∈ cmH.supported_methods ∧
    cmH.hessianInv (TSM.objFn cmH .logposterior)
      (cmH.minimize (TSM.objFn cmH .logposterior) cmH.registry.starting) =
        some [[4]] ∧
    ∃ rL rP : FitResult,
      TSM.fit cmH (some "Laplace") none none 10 =
        ((TSM.fit_pml cmH).1, .ok (some rL)) ∧
      TSM.fit cmH (some "PML") none none 10 =
        ((TSM.fit_pml cmH).1, .ok (some rP)) ∧
      rL.signal = rP.signal ∧ rL.method = "Laplace" ∧ rP.method = "PML" ∧
      rL.ihessian = some [[4]] :=
  ⟨by decide, rfl,
   (C6_amended_laplace_reuses_pml cmH none none 10 (by decide) (by decide)).2
     [[4]] rfl⟩

/-- C5: the MCMC per-dimension estimates are computed on the raw chain and
only afterwards transformed, each exactly once: the packaged chain row `k`
is the raw row mapped through latent variable `k`'s prior transform, the
packaged mean is the transform applied to the arithmetic mean of the raw
row (not the mean of the transformed row), the packaged median and
2.5%/97.5% bounds are the transforms of the raw sampler estimates, and the
registry receives exactly these transformed vectors. -/
theorem C5_transform_after_aggregation (m : Model) (sp : SamplerFn) (scale : ℚ)
    (nsims : ℕ) (cov : Option (List (List ℚ))) (start : List ℚ) (k : ℕ)
    (hk : k < (rawOut m sp scale nsims start cov).chain.length)
    (hmed : k < (rawOut m sp scale nsims start cov).median_est.length)
    (hup : k < (rawOut m sp scale nsims start cov).upper_95_est.length)
    (hlo : k < (rawOut m sp scale nsims start cov).lower_95_est.length) :
    ∃ r : FitResult,
      (TSM.mcmc_core m sp scale nsims "M-H" cov start).2 = .ok r ∧
      (r.samples.getD []).getD k [] =
        ((rawOut m sp scale nsims start cov).chain.getD k []).map
          ((priorAt m k).transform) ∧
      (r.mean_est.getD []).getD k 0 =
        (priorAt m k).transform
          (rowMean ((rawOut m sp scale nsims start cov).chain.getD k [])) ∧
      (r.median_est.getD []).getD k 0 =
        (priorAt m k).transform
          ((rawOut m sp scale nsims start cov).median_est.getD k 0) ∧
      (r.upper_95_est.getD []).getD k 0 =
        (priorAt m k).transform
          ((rawOut m sp scale nsims start cov).upper_95_est.getD k 0) ∧
      (r.lower_95_est.getD []).getD k 0 =
        (priorAt m k).transform
          ((rawOut m sp scale nsims start cov).lower_95_est.getD k 0) ∧
      r.registry_snapshot.values = r.mean_est.getD [] ∧
      r.registry_snapshot.chain = r.samples := by
  refine ⟨⟨"Metropolis Hastings", none, none,
      m.categorize (TSM.transformUpTo m (rawOut m sp scale nsims start cov).chain.length
        ((rawOut m sp scale nsims start cov).chain.map rowMean)),
      m.registry.set_z_values
        (TSM.transformUpTo m (rawOut m sp scale nsims start cov).chain.length
          ((rawOut m sp scale nsims start cov).chain.map rowMean))
        "M-H" none
        (some (mapIdxFrom (fun j row => row.map ((priorAt m j).transform)) 0
          (rawOut m sp scale nsims start cov).chain)),
      some (mapIdxFrom (fun j row => row.map ((priorAt m j).transform)) 0
        (rawOut m sp scale nsims start cov).chain),
      some (TSM.transformUpTo m (rawOut m sp scale nsims start cov).chain.length
        ((rawOut m sp scale nsims start cov).chain.map rowMean)),
      some (TSM.transformUpTo m (rawOut m sp scale nsims start cov).chain.length
        (rawOut m sp scale nsims start cov).median_est),
      some (TSM.transformUpTo m (rawOut m sp scale nsims start cov).chain.length
        (rawOut m sp scale nsims start cov).upper_95_est),
      some (TSM.transformUpTo m (rawOut m sp scale nsims start cov).chain.length
        (rawOut m sp scale nsims start cov).lower_95_est)⟩,
    ?_, ?_, ?_, ?_, ?_, ?_, ?_, ?_⟩
  · simp [TSM.mcmc_core, TSM.sample, rawOut]
  · simp only [Option.getD_some]
    rw [mapIdxFrom_getD _ 0 _ k hk ([] : List ℚ) ([] : List ℚ)]
    simp
  · simp only [Option.getD_some, TSM.transformUpTo]
    rw [mapIdxFrom_getD _ 0 _ k (by simpa using hk) (0 : ℚ) (0 : ℚ)]
    rw [list_map_getD rowMean _ k hk ([] : List ℚ) (0 : ℚ)]
    simp [hk]
  · simp only [Option.getD_some, TSM.transformUpTo]
    rw [mapIdxFrom_getD _ 0 _ k hmed (0 : ℚ) (0 : ℚ)]
    simp [hk]
  · simp only [Option.getD_some, TSM.transformUpTo]
    rw [mapIdxFrom_getD _ 0 _ k hup (0 : ℚ) (0 : ℚ)]
    simp [hk]
  · simp only [Option.getD_some, TSM.transformUpTo]
    rw [mapIdxFrom_getD _ 0 _ k hlo (0 : ℚ) (0 : ℚ)]
    simp [hk]
  · simp [Registry.set_z_values]
  · simp [Registry.set_z_values]

theorem C5_witness :
    0 < (rawOut cm cm.sampler 1 5 [1] none).chain.length ∧
    ∃ r : FitResult,
      (TSM.mcmc_core cm cm.sampler 1 5 "M-H" none [1]).2 = .ok r ∧
      (r.samples.getD []).getD 0 [] =
        ((rawOut cm cm.sampler 1 5 [1] none).chain.getD 0 []).map
          ((priorAt cm 0).transform) ∧
      (r.mean_est.getD []).getD 0 0 =
        (priorAt cm 0).transform
          (rowMean ((rawOut cm cm.sampler 1 5 [1] none).chain.getD 0 [])) ∧
      (r.median_est.getD []).getD 0 0 =
        (priorAt cm 0).transform
          ((rawOut cm cm.sampler 1 5 [1] none).median_est.getD 0 0) ∧
      (r.upper_95_est.getD []).getD 0 0 =
        (priorAt cm 0).transform
          ((rawOut cm cm.sampler 1 5 [1] none).upper_95_est.getD 0 0) ∧
      (r.lower_95_est.getD []).getD 0 0 =
        (priorAt cm 0).transform
          ((rawOut cm cm.sampler 1 5 [1] none).lower_95_est.getD 0 0) ∧
      r.registry_snapshot.values = r.mean_est.getD [] ∧
      r.registry_snapshot.chain = r.samples :=
  ⟨by decide,
   C5_transform_after_aggregation cm cm.sampler 1 5 none [1] 0
     (by decide) (by decide) (by decide) (by decide)⟩

theorem flatMap_congr_mem {α β : Type} (l : List α) (f g : α → List β)
    (h : ∀ a ∈ l, f a = g a) : l.flatMap f = l.flatMap g := by
  induction l with
  | nil => rfl
  | cons x xs ih =>
      simp only [List.flatMap_cons]
      rw [h x (List.mem_cons_self x xs), ih (fun a ha => h a (List.mem_cons_of_mem x ha))]

theorem range_filter_lower (i : ℕ) : ∀ n, i < n →
    (List.range n).filter (fun k => i == k || decide (i > k)) = List.range (i + 1) := by
  intro n
  induction n with
  | zero => intro h; exact absurd h (Nat.not_lt_zero i)
  | succ t ih =>
    intro h
    rw [List.range_succ, List.filter_append]
    rcases Nat.lt_or_ge i t with h1 | h1
    · rw [ih h1]
      have hpt : (i == t || decide (i > t)) = false := by
        simp only [Bool.or_eq_false_iff, beq_eq_false_iff_ne, ne_eq,
          decide_eq_false_iff_not, not_lt]
        omega
      have hft : List.filter (fun k => i == k || decide (i > k)) [t] = [] := by
        simp [List.filter_cons, hpt]
      rw [hft, List.append_nil]
    · have hit : i = t := by omega
      subst hit
      have h2 : List.filter (fun k => i == k || decide (i > k)) (List.range i) =
          List.range i := by
        rw [List.filter_eq_self]
        intro a ha
        have hai : a < i := List.mem_range.mp ha
        simp only [Bool.or_eq_true, beq_iff_eq, decide_eq_true_eq]
        omega
      have h3 : List.filter (fun k => i == k || decide (i > k)) [i] = [i] := by
        simp
      rw [h2, h3, ← List.range_succ]

theorem olsAppend_eq_lowerTriangle (m : Model) :
    TSM.olsAppend m =
      lowerTriangle m.ylen
        (fun i k => (lastPrior m).itransform (m.ols_covariance i k)) := by
  unfold TSM.olsAppend lowerTriangle
  apply flatMap_congr_mem
  intro i hi
  rw [range_filter_lower i m.ylen (List.mem_range.mp hi)]

theorem lowerTriangle_double_length (n : ℕ) (f : ℕ → ℕ → ℚ) :
    2 * (lowerTriangle n f).length = n * (n + 1) := by
  induction n with
  | zero => simp [lowerTriangle]
  | succ t ih =>
    have hstep : (lowerTriangle (t + 1) f).length =
        (lowerTriangle t f).length + (t + 1) := by
      unfold lowerTriangle
      rw [List.range_succ, List.flatMap_append]
      simp
    rw [hstep, Nat.mul_add, ih]
    ring

theorem lowerTriangle_length (n : ℕ) (f : ℕ → ℕ → ℚ) :
    (lowerTriangle n f).length = n * (n + 1) / 2 := by
  have h2 := lowerTriangle_double_length n f
  omega

theorem getD_replicate_of_lt (n : ℕ) (x d : ℚ) (i : ℕ) (h : i < n) :
    (List.replicate n x).getD i d = x := by
  induction n generalizing i with
  | zero => exact absurd h (Nat.not_lt_zero i)
  | succ t ih =>
    cases i with
    | zero => rfl
    | succ j => simpa [List.replicate] using ih j (by omega)

theorem olsAppend_set_use_ols (m : Model) :
    TSM.olsAppend { m with use_ols_covariance := true } = TSM.olsAppend m := rfl

/-- C8: an OLS fit stores in the registry the flattened regression
coefficients followed by exactly `ylen*(ylen+1)/2` appended entries — the
lower triangle (including diagonal) of the residual covariance matrix,
each passed through the (last latent variable's) prior's inverse
transform — and, whenever the analytic estimator covariance covers
exactly the coefficient block, the stored standard-error vector assigns
the sentinel value 1 to every appended covariance entry. -/
theorem C8_ols_covariance_block (m : Model)
    (h : (diag m.estimator_cov_ols).length = m.create_B_direct_flat.length) :
    ∃ r : FitResult,
      TSM.ols_fit m =
        ({ m with use_ols_covariance := true, registry := r.registry_snapshot },
         r) ∧
      r.registry_snapshot.values =
        m.create_B_direct_flat ++
          lowerTriangle m.ylen
            (fun i k => (lastPrior m).itransform (m.ols_covariance i k)) ∧
      (lowerTriangle m.ylen
          (fun i k => (lastPrior m).itransform (m.ols_covariance i k))).length =
        m.ylen * (m.ylen + 1) / 2 ∧
      (∀ j, m.create_B_direct_flat.length ≤ j →
        j < r.registry_snapshot.values.length →
        (r.registry_snapshot.ses.getD []).getD j 0 = 1) := by
  refine ⟨⟨"OLS", some m.estimator_cov_ols, none,
      m.categorize (m.create_B_direct_flat ++ TSM.olsAppend m),
      m.registry.set_z_values (m.create_B_direct_flat ++ TSM.olsAppend m) "OLS"
        (some ((diag m.estimator_cov_ols).map (fun x => m.np_sqrt |x|) ++
          List.replicate
            ((m.create_B_direct_flat ++ TSM.olsAppend m).length -
              m.create_B_direct_flat.length) 1))
        none,
      none, none, none, none, none⟩, ?_, ?_, ?_, ?_⟩
  · simp [TSM.ols_fit, Registry.set_z_values, olsAppend_set_use_ols]
  · simp only [Registry.set_z_values]
    rw [olsAppend_eq_lowerTriangle]
  · exact lowerTriangle_length m.ylen _
  · intro j hj1 hj2
    simp only [Registry.set_z_values, Option.getD_some] at hj2 ⊢
    have hlen : ((diag m.estimator_cov_ols).map (fun x => m.np_sqrt |x|)).length =
        m.create_B_direct_flat.length := by
      rw [List.length_map, h]
    rw [List.getD_append_right _ _ _ _ (by rw [hlen]; exact hj1)]
    apply getD_replicate_of_lt
    simp only [List.length_append] at hj2 ⊢
    rw [hlen]
    omega

theorem C8_witness :
    (diag cm.estimator_cov_ols).length = cm.create_B_direct_flat.length ∧
    ∃ r : FitResult,
      TSM.ols_fit cm =
        ({ cm with use_ols_covariance := true, registry := r.registry_snapshot },
         r) ∧
      r.registry_snapshot.values =
        cm.create_B_direct_flat ++
          lowerTriangle cm.ylen
            (fun i k => (lastPrior cm).itransform (cm.ols_covariance i k)) ∧
      (lowerTriangle cm.ylen
          (fun i k => (lastPrior cm).itransform (cm.ols_covariance i k))).length =
        cm.ylen * (cm.ylen + 1) / 2 ∧
      (∀ j, cm.create_B_direct_flat.length ≤ j →
        j < r.registry_snapshot.values.length →
        (r.registry_snapshot.ses.getD []).getD j 0 = 1) :=
  ⟨by decide, C8_ols_covariance_block cm (by decide)⟩

theorem lastVal_append (l : List ℤ) (x : ℤ) : lastVal (l ++ [x]) = x := by
  unfold lastVal
  simp only [List.length_append, List.length_cons, List.length_nil]
  rw [Nat.add_sub_cancel]
  rw [List.getD_append_right _ _ _ _ (Nat.le_refl _)]
  simp

theorem secondLastVal_append (l : List ℤ) (x : ℤ) (hl : 1 ≤ l.length) :
    secondLastVal (l ++ [x]) = lastVal l := by
  unfold secondLastVal lastVal
  simp only [List.length_append, List.length_cons, List.length_nil]
  have h1 : l.length + (0 + 1) - 2 = l.length - 1 := by omega
  rw [h1, List.getD_append _ _ _ _ (by omega)]

theorem lastVal_map_add (l : List ℤ) (d : ℤ) (hl : 1 ≤ l.length) :
    lastVal (l.map (fun x => x + d)) = lastVal l + d := by
  unfold lastVal
  rw [List.length_map]
  rw [list_map_getD (fun x => x + d) l (l.length - 1) (by omega) 0 0]

theorem secondLastVal_map_add (l : List ℤ) (d : ℤ) (hl : 1 ≤ l.length) :
    secondLastVal (l.map (fun x => x + d)) = secondLastVal l + d := by
  unfold secondLastVal
  rw [List.length_map]
  rw [list_map_getD (fun x => x + d) l (l.length - 2) (by omega) 0 0]

theorem dtShiftLoop_eq (h : ℕ) : ∀ l : List ℤ, 1 ≤ l.length →
    dtShiftLoop h l =
      l.map (fun x => x + (h : ℤ) * (lastVal l - secondLastVal l)) := by
  induction h with
  | zero =>
    intro l _
    simp [dtShiftLoop]
  | succ t ih =>
    intro l hl
    simp only [dtShiftLoop]
    rw [ih (l.map (fun x => x + (lastVal l - secondLastVal l)))
      (by rw [List.length_map]; exact hl)]
    rw [lastVal_map_add l _ hl, secondLastVal_map_add l _ hl, List.map_map]
    apply List.map_congr_left
    intro a _
    simp only [Function.comp_apply]
    push_cast
    ring

theorem int64Loop_eq (h : ℕ) : ∀ l : List ℤ, 2 ≤ l.length →
    int64Loop h l =
      l ++ (List.range h).map
        (fun i : ℕ => lastVal l + ((i : ℤ) + 1) * (lastVal l - secondLastVal l)) := by
  induction h with
  | zero => intro l _; simp [int64Loop]
  | succ t ih =>
    intro l hl
    simp only [int64Loop]
    rw [ih (l ++ [lastVal l + (lastVal l - secondLastVal l)])
      (by simp only [List.length_append, List.length_cons, List.length_nil]; omega)]
    rw [lastVal_append, secondLastVal_append l _ (by omega), List.append_assoc]
    congr 1
    rw [List.range_succ_eq_map]
    simp only [List.map_cons, List.map_map, List.singleton_append]
    congr 1
    · push_cast; ring
    · apply List.map_congr_left
      intro a _
      simp only [Function.comp_apply]
      push_cast
      ring

theorem genLoop_eq (h : ℕ) : ∀ l : List ℤ,
    genLoop h l =
      l ++ (List.range h).map (fun i : ℕ => lastVal l + ((i : ℤ) + 1)) := by
  induction h with
  | zero => intro l; simp [genLoop]
  | succ t ih =>
    intro l
    simp only [genLoop]
    rw [ih (l ++ [lastVal l + 1])]
    rw [lastVal_append, List.append_assoc]
    congr 1
    rw [List.range_succ_eq_map]
    simp only [List.map_cons, List.map_map, List.singleton_append]
    congr 1
    apply List.map_congr_left
    intro a _
    simp only [Function.comp_apply]
    push_cast
    ring

/-- C2 (amended): `shift_dates(h)` never mutates the model (the stored
index is deep-copied), but the returned index does not have length `h`.
On an `Int64Index` whose truncated copy (first `max_lag` entries dropped)
has at least two entries, the result is the truncated index *extended* by
`h` new entries spaced by the last observed spacing, so its length is
`(L - max_lag) + h`; on a `DatetimeIndex` the result is the truncated
index with every entry *shifted* by `h` times the last observed day
spacing, so its length is `L - max_lag`; on a non-pandas index the result
is the truncated index extended by `h` entries with spacing 1. -/
theorem C2_amended_shift_dates (m : Model) (h : ℕ) :
    (TSM.shift_dates m h).1 = m ∧
    (∀ l, m.index = .int64 l → 2 ≤ (l.drop m.max_lag).length →
      (TSM.shift_dates m h).2 =
        .int64 ((l.drop m.max_lag) ++ (List.range h).map
          (fun i : ℕ => lastVal (l.drop m.max_lag) +
            ((i : ℤ) + 1) *
              (lastVal (l.drop m.max_lag) - secondLastVal (l.drop m.max_lag)))) ∧
      (TSM.shift_dates m h).2.length = (l.drop m.max_lag).length + h) ∧
    (∀ l, m.index = .datetime l → 1 ≤ (l.drop m.max_lag).length →
      (TSM.shift_dates m h).2 =
        .datetime ((l.drop m.max_lag).map
          (fun x => x + (h : ℤ) *
            (lastVal (l.drop m.max_lag) - secondLastVal (l.drop m.max_lag)))) ∧
      (TSM.shift_dates m h).2.length = (l.drop m.max_lag).length) ∧
    (∀ l, m.index = .generic l →
      (TSM.shift_dates m h).2 =
        .generic ((l.drop m.max_lag) ++ (List.range h).map
          (fun i : ℕ => lastVal (l.drop m.max_lag) + ((i : ℤ) + 1)))) := by
  refine ⟨?_, ?_, ?_, ?_⟩
  · unfold TSM.shift_dates
    cases m.index <;> rfl
  · intro l hidx hlen
    constructor
    · simp [TSM.shift_dates, hidx, int64Loop_eq h _ hlen]
    · simp [TSM.shift_dates, hidx, int64Loop_eq h _ hlen, DateIndex.length]
  · intro l hidx hlen
    constructor
    · simp [TSM.shift_dates, hidx, dtShiftLoop_eq h _ hlen]
    · simp [TSM.shift_dates, hidx, dtShiftLoop_eq h _ hlen, DateIndex.length]
  · intro l hidx
    simp [TSM.shift_dates, hidx, genLoop_eq h]

/-- C2 counterexample: on the concrete model `cm`, whose stored index is
the Int64Index [0,2,4] with `max_lag = 0`, `shift_dates(2)` returns the
index [0,2,4,6,8] of length 5 = 3 + 2, not an index of length h = 2. -/
theorem C2_counterexample :
    (TSM.shift_dates cm 2).2 = .int64 [0, 2, 4, 6, 8] ∧
    (TSM.shift_dates cm 2).2.length = 5 ∧
    (TSM.shift_dates cm 2).2.length ≠ 2 := by
  refine ⟨?_, ?_, ?_⟩ <;> decide

theorem C2_witness :
    cm.index = .int64 [0, 2, 4] ∧
    2 ≤ (([0, 2, 4] : List ℤ).drop cm.max_lag).length ∧
    (TSM.shift_dates cm 2).1 = cm ∧
    (TSM.shift_dates cm 2).2.length =
      (([0, 2, 4] : List ℤ).drop cm.max_lag).length + 2 :=
  ⟨rfl, by decide, (C2_amended_shift_dates cm 2).1,
   ((C2_amended_shift_dates cm 2).2.1 [0, 2, 4] rfl (by decide)).2⟩
